import Mathlib

/-!
# `opm-test.go`: the end-to-end catalog pipeline

A shallow embedding of `opm-test.go`.  The program is a straight line of calls
into the outside world (a container tool run as a subprocess, the bundle and
index libraries, a scratch SQLite file).  Every such call is recorded in a
trace, and what it returns is decided by a `World`, which may look at everything
that happened before.

Conventions of the embedding:

* Go `error` values are represented by their text, `nil` by `none`;
* a panic is `none` in a function returning `Option`;
* `log.Fatal` ends the run with status 1 and one logged message;
* a `defer`red call is written out at each return it precedes; its own result is
  discarded by the program, and `os.Remove` is taken to remove the file;
* the package-level variables are a record `Globals`, fixed before `main` runs.

The first part of the file holds the definitions (the program, then the vocabulary
of the statements), the second part the theorems.
-/

namespace OpmTest

/-! ## Identifier generator -/

/-- Go `error` values, represented by the text of `Error()`. -/
abbrev GoError := String

/-- The global source of package `math/rand` (not part of the repository), by its
documented behaviour: `Seed` puts the source in a state determined by the seed
alone; `next` yields one raw non-negative draw and the following state.  Both are
arbitrary functions. -/
structure RandSource where
  Seed : Int → Nat
  next : Nat → Nat × Nat

/-- The call `rand.Seed(seed)`: whatever state the source was in is replaced by the one
computed from the seed. -/
def RandSource.reseed (R : RandSource) (_old : Nat) (seed : Int) : Nat := R.Seed seed

/-- The call `rand.Intn(n)`: it panics (`none`) when `n ≤ 0`, otherwise a draw reduced into
`[0, n)` together with the following state of the source. -/
def RandSource.Intn (R : RandSource) (s : Nat) (n : Int) : Option (Nat × Nat) :=
  if n ≤ 0 then none
  else some ((R.next s).1 % n.toNat, (R.next s).2)

/-- The local `CHARSET` of `StringWithCharset`.  All characters are ASCII, so byte
indexing and character indexing agree. -/
def CHARSET : String := "abcdefghijklmnopqrstuvwxyz0123456789"

/-- The loop `for i := range randChars { randChars[i] = CHARSET[rand.Intn(len(CHARSET))] }`
over the `n` remaining positions, from the lowest index up. -/
def fillChars (R : RandSource) : Nat → Nat → Option (List Char × Nat)
  | 0, s => some ([], s)
  | n + 1, s =>
    match R.Intn s (CHARSET.length : Int) with
    | none => none
    | some (k, s1) =>
      match CHARSET.data.get? k with
      | none => none
      | some c =>
        match fillChars R n s1 with
        | none => none
        | some (cs, s2) => some (c :: cs, s2)

/-- The function `StringWithCharset(length)`, run when the clock reads `now` and the
global source is in state `s`.  `make([]byte, length)` panics (`none`) on a negative
length and on a length beyond what the runtime allocates: `maxLen` is the largest
length for which `make([]byte, n)` returns.  It is a constant of the Go runtime and of
the machine, not of the source, hence a parameter (it is never more than the
runtime's `maxAlloc`, which is `1 << 48` on 64-bit Linux).  The result is the string
together with the state the source is left in. -/
def StringWithCharset (R : RandSource) (maxLen : Nat) (now : Int) (s : Nat) (length : Int) :
    Option (String × Nat) :=
  let seeded := R.reseed s now
  if length < 0 ∨ (maxLen : Int) < length then none
  else
    match fillChars R length.toNat seeded with
    | none => none
    | some (randChars, s1) => some (String.mk randChars, s1)

/-- The package-level variables that are read from the environment or generated
when the program is loaded. -/
structure Globals where
  DOCKER_USERNAME : String
  DOCKER_PASSWORD : String
  bundleTag1 : String
  bundleTag2 : String
  bundleTag3 : String
  indexTag : String
deriving DecidableEq, Repr

/-- Package initialisation: the four tags are generated one after the other, in
declaration order; `t1 … t4` are the four clock readings. -/
def initGlobals (R : RandSource) (maxLen : Nat) (user pass : String) (t1 t2 t3 t4 : Int)
    (s0 : Nat) : Option Globals :=
  match StringWithCharset R maxLen t1 s0 6 with
  | none => none
  | some (tag1, s1) =>
    match StringWithCharset R maxLen t2 s1 6 with
    | none => none
    | some (tag2, s2) =>
      match StringWithCharset R maxLen t3 s2 6 with
      | none => none
      | some (tag3, s3) =>
        match StringWithCharset R maxLen t4 s3 6 with
        | none => none
        | some (tag4, _) =>
          some { DOCKER_USERNAME := user, DOCKER_PASSWORD := pass,
                 bundleTag1 := tag1, bundleTag2 := tag2, bundleTag3 := tag3,
                 indexTag := tag4 }

/-- A small linear congruential source, used for concrete runs. -/
def lcg : RandSource where
  Seed := fun t => t.toNat % 1000003
  next := fun s => ((s * 75 + 74) % 65537, (s * 75 + 74) % 65537)


/-! ## Requests and external calls -/

/-- The request type `indexer.AddToIndexRequest`. -/
structure AddToIndexRequest where
  Generate : Bool
  FromIndex : String
  BinarySourceImage : String
  OutDockerfile : String
  Tag : String
  Bundles : List String
  Permissive : Bool
deriving DecidableEq, Repr

/-- The request type `indexer.ExportFromIndexRequest`. -/
structure ExportFromIndexRequest where
  Index : String
  Package : String
  DownloadPath : String
  ContainerTool : String
deriving DecidableEq, Repr

/-- The calls the program makes into the outside world, with their arguments. -/
inductive Action where
  /-- Running `exec.Command(name, args...).Run()`. -/
  | command (name : String) (args : List String)
  /-- Calling `bundle.BuildFunc`. -/
  | BuildFunc (path imageRef tool packageName channels defaultChannel : String)
      (generateOnly : Bool)
  /-- Calling `indexer.NewIndexAdder(containerTool, logger).AddToIndex(request)`. -/
  | AddToIndex (containerTool : String) (request : AddToIndexRequest)
  /-- Calling `indexer.NewIndexExporter(containerTool, logger).ExportFromIndex(request)`. -/
  | ExportFromIndex (containerTool : String) (request : ExportFromIndexRequest)
  /-- Calling `ioutil.TempFile(dir, pattern)`. -/
  | TempFile (dir pattern : String)
  /-- Calling `sql.Open(driverName, dataSourceName)`. -/
  | sqlOpen (driverName dataSourceName : String)
  /-- Calling `sqlite.NewSQLLiteLoader(db)`. -/
  | NewSQLLiteLoader
  /-- Calling `dbLoader.Migrate(context.TODO())`. -/
  | Migrate
  /-- Calling `sqlite.NewSQLLoaderForDirectory(dbLoader, directory).Populate()`. -/
  | Populate (directory : String)
  /-- Calling `db.Close()`. -/
  | dbClose
  /-- Calling `os.Remove(name)`. -/
  | Remove (name : String)
deriving DecidableEq, Repr

/-- One entry of the trace: a call whose error result the program inspects
(`none` for a nil error), or a deferred call whose result is discarded. -/
inductive Event where
  | call (a : Action) (err : Option GoError)
  | deferred (a : Action)
deriving DecidableEq, Repr

/-- The outside world: whether a call fails, and the name of the file `TempFile`
creates, both as a function of everything done so far. -/
structure World where
  fails : List Event → Action → Option GoError
  tempName : List Event → String

/-- What the program has done so far, and the scratch files it has created and
not removed. -/
structure Sys where
  trace : List Event
  files : List String
deriving DecidableEq, Repr

/-- A call whose error is returned to the caller. -/
def call (w : World) (a : Action) (s : Sys) : Option GoError × Sys :=
  (w.fails s.trace a, { s with trace := s.trace ++ [Event.call a (w.fails s.trace a)] })

/-- The call `ioutil.TempFile(dir, pattern)`: on success the file exists and its name is
returned. -/
def TempFile (w : World) (dir pattern : String) (s : Sys) : Except GoError String × Sys :=
  match w.fails s.trace (Action.TempFile dir pattern) with
  | some e =>
    (Except.error e,
      { s with trace := s.trace ++ [Event.call (Action.TempFile dir pattern) (some e)] })
  | none =>
    (Except.ok (w.tempName s.trace),
      { trace := s.trace ++ [Event.call (Action.TempFile dir pattern) none],
        files := w.tempName s.trace :: s.files })

/-- A deferred call, run when the enclosing function returns; its result is
discarded.  `os.Remove` takes the named file away. -/
def runDeferred (a : Action) (s : Sys) : Sys :=
  { trace := s.trace ++ [Event.deferred a],
    files := match a with
      | Action.Remove name => s.files.filter (fun f => f != name)
      | _ => s.files }

/-! ## The stages -/

/-! Package-level constants. -/

def packageName : String := "prometheus"
def channels : String := "preview"
def defaultChannel : String := "preview"

def bundlePath1 : String := "manifests/prometheus/0.14.0"
def bundlePath2 : String := "manifests/prometheus/0.15.0"
def bundlePath3 : String := "manifests/prometheus/0.22.2"

def bundleImage : String := "quay.io/olmtest/e2e-bundle"
/-- The package-level `indexImage`, computed once from `indexTag`. -/
def indexImage (g : Globals) : String := "quay.io/olmtest/e2e-index:" ++ g.indexTag

/-- The function `buildBundlesWith`. -/
def buildBundlesWith (w : World) (g : Globals) (containerTool : String) (s : Sys) :
    Option GoError × Sys :=
  match call w (Action.BuildFunc bundlePath1 (bundleImage ++ ":" ++ g.bundleTag1) containerTool
      packageName channels defaultChannel false) s with
  | (some err, s1) => (some err, s1)
  | (none, s1) =>
    match call w (Action.BuildFunc bundlePath2 (bundleImage ++ ":" ++ g.bundleTag2) containerTool
        packageName channels defaultChannel false) s1 with
    | (some err, s2) => (some err, s2)
    | (none, s2) =>
      call w (Action.BuildFunc bundlePath3 (bundleImage ++ ":" ++ g.bundleTag3) containerTool
        packageName channels defaultChannel false) s2

/-- The function `buildIndexWith`. -/
def buildIndexWith (w : World) (g : Globals) (containerTool : String) (s : Sys) :
    Option GoError × Sys :=
  let bundles := [bundleImage ++ ":" ++ g.bundleTag1,
                  bundleImage ++ ":" ++ g.bundleTag2,
                  bundleImage ++ ":" ++ g.bundleTag3]
  let request : AddToIndexRequest :=
    { Generate := false,
      FromIndex := "",
      BinarySourceImage := "",
      OutDockerfile := "",
      Tag := indexImage g,
      Bundles := bundles,
      Permissive := false }
  call w (Action.AddToIndex containerTool request) s

/-- The function `pushWith`. -/
def pushWith (w : World) (containerTool image : String) (s : Sys) : Option GoError × Sys :=
  call w (Action.command containerTool ["push", image]) s

/-- The function `pushBundles`. -/
def pushBundles (w : World) (g : Globals) (containerTool : String) (s : Sys) :
    Option GoError × Sys :=
  match pushWith w containerTool (bundleImage ++ ":" ++ g.bundleTag1) s with
  | (some err, s1) => (some err, s1)
  | (none, s1) =>
    match pushWith w containerTool (bundleImage ++ ":" ++ g.bundleTag2) s1 with
    | (some err, s2) => (some err, s2)
    | (none, s2) => pushWith w containerTool (bundleImage ++ ":" ++ g.bundleTag3) s2

/-- The function `exportWith`. -/
def exportWith (w : World) (g : Globals) (containerTool : String) (s : Sys) :
    Option GoError × Sys :=
  let request : ExportFromIndexRequest :=
    { Index := indexImage g,
      Package := packageName,
      DownloadPath := "downloaded",
      ContainerTool := containerTool }
  call w (Action.ExportFromIndex containerTool request) s

/-- The function `initialize` of the source.  The two `defer` statements are
written out at every return reached after they were registered, last registered
first. -/
def initializeDB (w : World) (s : Sys) : Option GoError × Sys :=
  match TempFile w "./" "index_tmp.db" s with
  | (Except.error err, s1) => (some err, s1)
  | (Except.ok tmpDB, s1) =>
    match call w (Action.sqlOpen "sqlite3" tmpDB) s1 with
    | (some err, s2) => (some err, runDeferred (Action.Remove tmpDB) s2)
    | (none, s2) =>
      match call w Action.NewSQLLiteLoader s2 with
      | (some err, s3) =>
        (some err, runDeferred (Action.Remove tmpDB) (runDeferred Action.dbClose s3))
      | (none, s3) =>
        match call w Action.Migrate s3 with
        | (some err, s4) =>
          (some err, runDeferred (Action.Remove tmpDB) (runDeferred Action.dbClose s4))
        | (none, s4) =>
          match call w (Action.Populate "downloaded") s4 with
          | (err, s5) =>
            (err, runDeferred (Action.Remove tmpDB) (runDeferred Action.dbClose s5))

/-! ## `main` -/

/-- How a run of `main` ends. -/
structure Outcome where
  sys : Sys
  /-- the messages written by `log.Fatal` -/
  fatal : List String
  exitCode : Nat
deriving DecidableEq, Repr

/-- The call `log.Fatal(v...)`: the operands are printed as by `fmt.Sprint` (no space is
added next to a string operand) and the process exits with status 1. -/
def logFatal (s : Sys) (msg : String) : Outcome :=
  { sys := s, fatal := [msg], exitCode := 1 }

/-- Lines 143-154 of `main`: the argument checks.  `Except.error` carries the
message handed to `log.Fatal`; `Except.ok` carries `containerTool`. -/
def usage (args : List String) : Except String String :=
  match args with
  | [] => -- len(args) == 0
    Except.error "Must specify which container tool to use from [\"docker\", \"podman\"]"
  | _ :: _ :: _ => -- len(args) > 1
    Except.error "Too many command line arguments provided"
  | [arg0] =>
    if arg0 != "docker" && arg0 != "podman" then
      Except.error "container tool argument must be one of [\"docker\", \"podman\"]"
    else Except.ok arg0

/-- Lines 156-190 of `main`: the stages, each followed by its error check. -/
def stages (w : World) (g : Globals) (containerTool : String) (s : Sys) : Outcome :=
  match call w (Action.command containerTool
      ["login", "-u", g.DOCKER_USERNAME, "-p", g.DOCKER_PASSWORD, "quay.io"]) s with
  | (some err, s1) => logFatal s1 ("Error logging into quay.io" ++ err)
  | (none, s1) =>
    match buildBundlesWith w g containerTool s1 with
    | (some err, s2) => logFatal s2 ("Error building bundles" ++ err)
    | (none, s2) =>
      match pushBundles w g containerTool s2 with
      | (some err, s3) => logFatal s3 ("Error pushing bundles" ++ err)
      | (none, s3) =>
        match buildIndexWith w g containerTool s3 with
        | (some err, s4) => logFatal s4 ("Error building index" ++ err)
        | (none, s4) =>
          match pushWith w containerTool (indexImage g) s4 with
          | (some err, s5) => logFatal s5 ("Error pushing index" ++ err)
          | (none, s5) =>
            match exportWith w g containerTool s5 with
            | (some err, s6) => logFatal s6 ("Error exporting from index" ++ err)
            | (none, s6) =>
              match initializeDB w s6 with
              | (some err, s7) => logFatal s7 ("Error loading manifests from directory" ++ err)
              | (none, s7) => { sys := s7, fatal := [], exitCode := 0 }

/-- The state a run starts in: nothing done, no scratch file. -/
def Sys.start : Sys := { trace := [], files := [] }

/-- The function `main`, on the argument list `os.Args[1:]`. -/
def main (w : World) (g : Globals) (args : List String) : Outcome :=
  match usage args with
  | Except.error msg => logFatal Sys.start msg
  | Except.ok containerTool => stages w g containerTool Sys.start

/-- The world in which every call succeeds and the scratch file is `name`. -/
def World.allOk (name : String) : World :=
  { fails := fun _ _ => none, tempName := fun _ => name }

/-- A fixed set of globals for concrete runs. -/
def sampleGlobals : Globals :=
  { DOCKER_USERNAME := "user", DOCKER_PASSWORD := "secret",
    bundleTag1 := "aaaaa1", bundleTag2 := "aaaaa2", bundleTag3 := "aaaaa3",
    indexTag := "idx000" }

/-! ## Vocabulary of the statements -/

/-- The first call in a trace that returned an error: its position and the error. -/
def firstFailure : List Event → Option (Nat × GoError)
  | [] => none
  | Event.call _ (some e) :: _ => some (0, e)
  | Event.call _ none :: rest => (firstFailure rest).map (fun p => (p.1 + 1, p.2))
  | Event.deferred _ :: rest => (firstFailure rest).map (fun p => (p.1 + 1, p.2))

/-- Whether an event is a deferred call. -/
def Event.isDeferred : Event → Bool
  | Event.deferred _ => true
  | Event.call _ _ => false

/-- The seven stages of `main`, one per `log.Fatal` after the argument checks. -/
inductive Stage where
  | login | bundleBuild | bundlePush | indexBuild | indexPush | export | load
deriving DecidableEq, Repr

/-- The stage that call number `i` of a run (counting from 0, in program order)
belongs to: the login, three builds, three pushes, the index add, the index push,
the export, and from call 10 on the calls of `initialize`. -/
def stageAt (i : Nat) : Stage :=
  if i = 0 then Stage.login
  else if i ≤ 3 then Stage.bundleBuild
  else if i ≤ 6 then Stage.bundlePush
  else if i = 7 then Stage.indexBuild
  else if i = 8 then Stage.indexPush
  else if i = 9 then Stage.export
  else Stage.load

/-- The text each stage hands to `log.Fatal` in front of the error. -/
def stageMessage : Stage → String
  | Stage.login => "Error logging into quay.io"
  | Stage.bundleBuild => "Error building bundles"
  | Stage.bundlePush => "Error pushing bundles"
  | Stage.indexBuild => "Error building index"
  | Stage.indexPush => "Error pushing index"
  | Stage.export => "Error exporting from index"
  | Stage.load => "Error loading manifests from directory"

/-- Calls made one after the other, stopping at the first that fails. -/
def runScript (w : World) : List Action → Sys → Option GoError × Sys
  | [], s => (none, s)
  | a :: rest, s =>
    match call w a s with
    | (some err, s1) => (some err, s1)
    | (none, s1) => runScript w rest s1

/-- The events of a list of calls that all succeeded. -/
def okEvents (as : List Action) : List Event := as.map (fun a => Event.call a none)

/-- The registry login of `main`. -/
def loginAction (g : Globals) (containerTool : String) : Action :=
  Action.command containerTool
    ["login", "-u", g.DOCKER_USERNAME, "-p", g.DOCKER_PASSWORD, "quay.io"]

/-- The call of `bundle.BuildFunc` in `buildBundlesWith` for one path and tag. -/
def buildAction (containerTool path tag : String) : Action :=
  Action.BuildFunc path (bundleImage ++ ":" ++ tag) containerTool packageName channels
    defaultChannel false

/-- The subprocess `pushWith` runs. -/
def pushAction (containerTool image : String) : Action :=
  Action.command containerTool ["push", image]

/-- The local `bundles` of `buildIndexWith`. -/
def bundleRefs (g : Globals) : List String :=
  [bundleImage ++ ":" ++ g.bundleTag1, bundleImage ++ ":" ++ g.bundleTag2,
   bundleImage ++ ":" ++ g.bundleTag3]

/-- The local `request` of `buildIndexWith`. -/
def indexRequest (g : Globals) : AddToIndexRequest :=
  { Generate := false, FromIndex := "", BinarySourceImage := "", OutDockerfile := "",
    Tag := indexImage g, Bundles := bundleRefs g, Permissive := false }

/-- The local `request` of `exportWith`. -/
def exportRequest (g : Globals) (containerTool : String) : ExportFromIndexRequest :=
  { Index := indexImage g, Package := packageName, DownloadPath := "downloaded",
    ContainerTool := containerTool }

/-- The three builds of `buildBundlesWith`, in program order. -/
def buildScript (g : Globals) (c : String) : List Action :=
  [buildAction c bundlePath1 g.bundleTag1, buildAction c bundlePath2 g.bundleTag2,
   buildAction c bundlePath3 g.bundleTag3]

/-- The three pushes of `pushBundles`, in program order. -/
def pushScript (g : Globals) (c : String) : List Action :=
  [pushAction c (bundleImage ++ ":" ++ g.bundleTag1),
   pushAction c (bundleImage ++ ":" ++ g.bundleTag2),
   pushAction c (bundleImage ++ ":" ++ g.bundleTag3)]

/-- The ten calls `main` makes before `initialize`, in program order. -/
def script (g : Globals) (c : String) : List Action :=
  [loginAction g c] ++ buildScript g c ++ pushScript g c ++
  [Action.AddToIndex c (indexRequest g), pushAction c (indexImage g),
   Action.ExportFromIndex c (exportRequest g c)]

/-- A sequence of stages: each runs its calls and, when one fails, ends the run
with the stage's message; `final` is what follows the last stage. -/
def runStaged (w : World) (final : Sys → Outcome) :
    List (String × List Action) → Sys → Outcome
  | [], s => final s
  | (msg, seg) :: rest, s =>
    match runScript w seg s with
    | (some err, s1) => logFatal s1 (msg ++ err)
    | (none, s1) => runStaged w final rest s1

/-- The stages of `main` before `initialize`, with their messages. -/
def stageList (g : Globals) (c : String) : List (String × List Action) :=
  [("Error logging into quay.io", [loginAction g c]),
   ("Error building bundles", buildScript g c),
   ("Error pushing bundles", pushScript g c),
   ("Error building index", [Action.AddToIndex c (indexRequest g)]),
   ("Error pushing index", [pushAction c (indexImage g)]),
   ("Error exporting from index", [Action.ExportFromIndex c (exportRequest g c)])]

/-- The last stage of `main`: `initialize` and its error check. -/
def loadStage (w : World) (s : Sys) : Outcome :=
  match initializeDB w s with
  | (some err, s7) => logFatal s7 ("Error loading manifests from directory" ++ err)
  | (none, s7) => { sys := s7, fatal := [], exitCode := 0 }

/-- All the calls of a list of stages, in order. -/
def allCalls : List (String × List Action) → List Action
  | [] => []
  | (_, seg) :: rest => seg ++ allCalls rest

/-- The five calls of `initialize` whose error is checked, in program order. -/
def loadScript (name : String) : List Action :=
  [Action.TempFile "./" "index_tmp.db", Action.sqlOpen "sqlite3" name,
   Action.NewSQLLiteLoader, Action.Migrate, Action.Populate "downloaded"]

/-- The deferred calls pending after the first `n` calls of `initialize` succeeded. -/
def pendingDeferred (name : String) (n : Nat) : List Event :=
  if n = 0 then []
  else if n = 1 then [Event.deferred (Action.Remove name)]
  else [Event.deferred Action.dbClose, Event.deferred (Action.Remove name)]

/-- The fifteen calls of a run whose error is checked, in program order. -/
def program (w : World) (g : Globals) (c : String) : List Action :=
  script g c ++ loadScript (w.tempName (okEvents (script g c)))

/-- The action of a trace entry. -/
def Event.action : Event → Action
  | Event.call a _ => a
  | Event.deferred a => a

/-- The world in which exactly the calls with action `bad` fail, with error `e`. -/
def World.failingAt (bad : Action) (e : GoError) (name : String) : World :=
  { fails := fun _ a => if a = bad then some e else none, tempName := fun _ => name }

/-- The outcome `out` of a function run from state `s` is that of making the calls
`a1`, `a2`, `a3` in this order, each only when those before it succeeded, and returning
the first error (or the result of the third call). -/
def CallsInOrder (w : World) (a1 a2 a3 : Action) (s : Sys) (out : Option GoError × Sys) :
    Prop :=
  (∃ e, w.fails s.trace a1 = some e ∧
    out = (some e, { trace := s.trace ++ [Event.call a1 (some e)], files := s.files })) ∨
  (∃ e, w.fails s.trace a1 = none ∧
    w.fails (s.trace ++ [Event.call a1 none]) a2 = some e ∧
    out = (some e, { trace := s.trace ++ [Event.call a1 none, Event.call a2 (some e)],
                     files := s.files })) ∨
  (w.fails s.trace a1 = none ∧
    w.fails (s.trace ++ [Event.call a1 none]) a2 = none ∧
    out = (w.fails (s.trace ++ [Event.call a1 none, Event.call a2 none]) a3,
           { trace := s.trace ++ [Event.call a1 none, Event.call a2 none,
               Event.call a3 (w.fails (s.trace ++ [Event.call a1 none, Event.call a2 none]) a3)],
             files := s.files }))

/-! # Theorems -/

/-! ## Identifier generator -/

theorem CHARSET_length : CHARSET.length = 36 := by decide

theorem fillChars_spec (R : RandSource) (n : Nat) :
    ∀ s : Nat, ∃ cs s1, fillChars R n s = some (cs, s1) ∧ cs.length = n ∧
      ∀ c ∈ cs, c ∈ CHARSET.data := by
  induction n with
  | zero => intro s; exact ⟨[], s, rfl, rfl, by simp⟩
  | succ n ih =>
    intro s
    have hk : (R.next s).1 % 36 < CHARSET.data.length := by
      have : CHARSET.data.length = 36 := by decide
      rw [this]; exact Nat.mod_lt _ (by decide)
    obtain ⟨cs, s2, hrec, hlen, hmem⟩ := ih (R.next s).2
    refine ⟨CHARSET.data.get ⟨_, hk⟩ :: cs, s2, ?_, by simp [hlen], ?_⟩
    · have hI : R.Intn s (CHARSET.length : Int) = some ((R.next s).1 % 36, (R.next s).2) := by
        simp [RandSource.Intn, CHARSET_length]
      have hg : CHARSET.data.get? ((R.next s).1 % 36) = some (CHARSET.data.get ⟨_, hk⟩) :=
        List.get?_eq_get hk
      simp only [fillChars, hI, hg, hrec]
    · intro c hc
      rcases List.mem_cons.mp hc with h | h
      · rw [h]; exact List.get_mem _ _ _
      · exact hmem c h

theorem StringWithCharset_six (R : RandSource) (maxLen : Nat) (now : Int) (s : Nat)
    (h6 : 6 ≤ maxLen) :
    ∃ str s1, StringWithCharset R maxLen now s 6 = some (str, s1) ∧
      str.length = 6 ∧ ∀ c ∈ str.data, c ∈ CHARSET.data := by
  obtain ⟨cs, s1, h, hlen, hmem⟩ := fillChars_spec R 6 (R.reseed s now)
  refine ⟨String.mk cs, s1, ?_, hlen, hmem⟩
  have h6n : (6 : Int).toNat = 6 := rfl
  have hneg : ¬ ((6 : Int) < 0 ∨ (maxLen : Int) < 6) := by omega
  simp only [StringWithCharset, if_neg hneg, h6n, h]

/-- C2, as amended.  For every requested length `L` with `1 ≤ L ≤ maxLen`, where
`maxLen` is the largest length for which `make([]byte, n)` returns, and for every random
source, every clock reading and every prior state of the source, `StringWithCharset`
returns (the index drawn by `rand.Intn(36)` is always a valid position of `CHARSET`),
the string has exactly `L` characters, and each of them is one of the 36 characters of
`CHARSET`, which is `abcdefghijklmnopqrstuvwxyz0123456789`. -/
theorem StringWithCharset_length_charset (R : RandSource) (maxLen : Nat) (now : Int) (s : Nat)
    (L : Int) (hL : 1 ≤ L) (hmax : L ≤ (maxLen : Int)) :
    CHARSET = "abcdefghijklmnopqrstuvwxyz0123456789" ∧ CHARSET.length = 36 ∧
    ∃ str s1, StringWithCharset R maxLen now s L = some (str, s1) ∧
      (str.length : Int) = L ∧ ∀ c ∈ str.data, c ∈ CHARSET.data := by
  obtain ⟨cs, s1, h, hlen, hmem⟩ := fillChars_spec R L.toNat (R.reseed s now)
  refine ⟨rfl, CHARSET_length, String.mk cs, s1, ?_, ?_, hmem⟩
  · have hneg : ¬ (L < 0 ∨ (maxLen : Int) < L) := by omega
    simp only [StringWithCharset, if_neg hneg, h]
  · show ((cs.length : Nat) : Int) = L
    rw [hlen]; omega

theorem StringWithCharset_length_charset_witness :
    (1 : Int) ≤ 6 ∧ (6 : Int) ≤ ((2 ^ 48 : Nat) : Int) ∧
    ∃ str s1, StringWithCharset lcg (2 ^ 48) 12345 0 6 = some (str, s1) ∧
      (str.length : Int) = 6 ∧ ∀ c ∈ str.data, c ∈ CHARSET.data :=
  ⟨by decide, by decide,
    (StringWithCharset_length_charset lcg (2 ^ 48) 12345 0 6 (by decide) (by decide)).2.2⟩

/-- C2, as stated, fails: with the allocation limit of the Go runtime on 64-bit Linux
(`1 << 48`) and the requested length `1 << 62`, which is at least 1, `make` panics and
`StringWithCharset` returns no string at all. -/
theorem StringWithCharset_length_counterexample :
    (1 : Int) ≤ 2 ^ 62 ∧
    StringWithCharset lcg (2 ^ 48) 12345 0 (2 ^ 62) = none ∧
    ¬ ∃ str s1, StringWithCharset lcg (2 ^ 48) 12345 0 (2 ^ 62) = some (str, s1) ∧
      (str.length : Int) = 2 ^ 62 ∧ ∀ c ∈ str.data, c ∈ CHARSET.data := by
  have hpanic : StringWithCharset lcg (2 ^ 48) 12345 0 (2 ^ 62) = none := by
    have h : ((2 : Int) ^ 62 < 0 ∨ ((2 ^ 48 : Nat) : Int) < (2 : Int) ^ 62) :=
      Or.inr (by norm_num)
    simp only [StringWithCharset, if_pos h]
  refine ⟨by norm_num, hpanic, ?_⟩
  rintro ⟨str, s1, h, -⟩
  rw [hpanic] at h
  cases h

/-! ## Runs as scripts -/

theorem runScript_cases (w : World) (as : List Action) :
    ∀ s : Sys,
      runScript w as s = (none, { trace := s.trace ++ okEvents as, files := s.files }) ∨
      ∃ n a e, as[n]? = some a ∧
        runScript w as s =
          (some e, { trace := s.trace ++ okEvents (as.take n) ++ [Event.call a (some e)],
                     files := s.files }) := by
  induction as with
  | nil => intro s; left; simp [runScript, okEvents]
  | cons a rest ih =>
    intro s
    cases h : w.fails s.trace a with
    | some e =>
      right
      exact ⟨0, a, e, by simp, by simp [runScript, call, h, okEvents]⟩
    | none =>
      rcases ih { trace := s.trace ++ [Event.call a none], files := s.files } with h1 | ⟨n, b, e, hb, h1⟩
      · left
        simp [runScript, call, h, h1, okEvents]
      · right
        refine ⟨n + 1, b, e, by simpa using hb, ?_⟩
        simp [runScript, call, h, h1, okEvents]

theorem buildBundlesWith_eq (w : World) (g : Globals) (c : String) (s : Sys) :
    buildBundlesWith w g c s = runScript w (buildScript g c) s := by
  simp only [buildBundlesWith, runScript, buildScript, buildAction]
  repeat' split
  all_goals simp_all

theorem pushBundles_eq (w : World) (g : Globals) (c : String) (s : Sys) :
    pushBundles w g c s = runScript w (pushScript g c) s := by
  simp only [pushBundles, pushWith, runScript, pushScript, pushAction]
  repeat' split
  all_goals simp_all

theorem runScript_single (w : World) (a : Action) (s : Sys) :
    runScript w [a] s = call w a s := by
  cases h : w.fails s.trace a <;> simp [runScript, call, h]

theorem stages_eq_runStaged (w : World) (g : Globals) (c : String) (s : Sys) :
    stages w g c s = runStaged w (loadStage w) (stageList g c) s := by
  simp only [stages, runStaged, stageList, buildBundlesWith_eq, pushBundles_eq, pushWith,
    buildIndexWith, exportWith, runScript_single, loadStage, loginAction, pushAction,
    indexRequest, exportRequest, bundleRefs]

theorem okEvents_append (xs ys : List Action) :
    okEvents (xs ++ ys) = okEvents xs ++ okEvents ys := by
  simp [okEvents]

theorem runStaged_cases (w : World) (final : Sys → Outcome) (l : List (String × List Action)) :
    ∀ s : Sys,
      runStaged w final l s =
        final { trace := s.trace ++ okEvents (allCalls l), files := s.files } ∨
      ∃ i msg seg n a e, l[i]? = some (msg, seg) ∧ seg[n]? = some a ∧
        runStaged w final l s =
          logFatal { trace := s.trace ++ okEvents (allCalls (l.take i)) ++ okEvents (seg.take n) ++
                       [Event.call a (some e)], files := s.files } (msg ++ e) := by
  induction l with
  | nil => intro s; left; simp [runStaged, allCalls, okEvents]
  | cons p rest ih =>
    intro s
    obtain ⟨msg, seg⟩ := p
    rcases runScript_cases w seg s with h | ⟨n, a, e, ha, h⟩
    · rcases ih { trace := s.trace ++ okEvents seg, files := s.files } with
        h1 | ⟨i, m, sg, n, a, e, hi, hn, h1⟩
      · left
        rw [runStaged, h]
        simp only []
        rw [h1]
        simp only [allCalls, okEvents_append, List.append_assoc]
      · right
        refine ⟨i + 1, m, sg, n, a, e, by simpa using hi, hn, ?_⟩
        rw [runStaged, h]
        simp only []
        rw [h1]
        simp only [allCalls, okEvents_append, List.append_assoc, List.take_succ_cons]
    · right
      refine ⟨0, msg, seg, n, a, e, by simp, ha, ?_⟩
      rw [runStaged, h]
      simp [allCalls, okEvents]

theorem stages_cases (w : World) (g : Globals) (c : String) :
    (∃ n a e, (script g c)[n]? = some a ∧
      stages w g c Sys.start =
        logFatal { trace := okEvents ((script g c).take n) ++ [Event.call a (some e)],
                   files := [] } (stageMessage (stageAt n) ++ e)) ∨
    stages w g c Sys.start = loadStage w { trace := okEvents (script g c), files := [] } := by
  rw [stages_eq_runStaged]
  rcases runStaged_cases w (loadStage w) (stageList g c) Sys.start with h | ⟨i, msg, seg, n, a, e, hi, hn, h⟩
  · right
    rw [h]
    simp [Sys.start, allCalls, stageList, script, okEvents, buildScript, pushScript]
  · left
    rw [h]
    rcases i with _ | _ | _ | _ | _ | _ | i
    all_goals simp [stageList] at hi
    all_goals obtain ⟨hm, hs⟩ := hi
    all_goals subst hm
    all_goals subst hs
    all_goals rcases n with _ | _ | _ | n
    all_goals simp [buildScript, pushScript] at hn
    all_goals subst hn
    all_goals first
      | (refine ⟨0, _, e, rfl, ?_⟩
         simp [Sys.start, allCalls, stageList, script, okEvents, buildScript, pushScript,
           stageAt, stageMessage]
         done)
      | (refine ⟨1, _, e, rfl, ?_⟩
         simp [Sys.start, allCalls, stageList, script, okEvents, buildScript, pushScript,
           stageAt, stageMessage]
         done)
      | (refine ⟨2, _, e, rfl, ?_⟩
         simp [Sys.start, allCalls, stageList, script, okEvents, buildScript, pushScript,
           stageAt, stageMessage]
         done)
      | (refine ⟨3, _, e, rfl, ?_⟩
         simp [Sys.start, allCalls, stageList, script, okEvents, buildScript, pushScript,
           stageAt, stageMessage]
         done)
      | (refine ⟨4, _, e, rfl, ?_⟩
         simp [Sys.start, allCalls, stageList, script, okEvents, buildScript, pushScript,
           stageAt, stageMessage]
         done)
      | (refine ⟨5, _, e, rfl, ?_⟩
         simp [Sys.start, allCalls, stageList, script, okEvents, buildScript, pushScript,
           stageAt, stageMessage]
         done)
      | (refine ⟨6, _, e, rfl, ?_⟩
         simp [Sys.start, allCalls, stageList, script, okEvents, buildScript, pushScript,
           stageAt, stageMessage]
         done)
      | (refine ⟨7, _, e, rfl, ?_⟩
         simp [Sys.start, allCalls, stageList, script, okEvents, buildScript, pushScript,
           stageAt, stageMessage]
         done)
      | (refine ⟨8, _, e, rfl, ?_⟩
         simp [Sys.start, allCalls, stageList, script, okEvents, buildScript, pushScript,
           stageAt, stageMessage]
         done)
      | (refine ⟨9, _, e, rfl, ?_⟩
         simp [Sys.start, allCalls, stageList, script, okEvents, buildScript, pushScript,
           stageAt, stageMessage])

theorem initializeDB_cases (w : World) (s : Sys) :
    (∃ n a e, (loadScript (w.tempName s.trace))[n]? = some a ∧
      initializeDB w s =
        (some e, { trace := s.trace ++ okEvents ((loadScript (w.tempName s.trace)).take n) ++
                     [Event.call a (some e)] ++ pendingDeferred (w.tempName s.trace) n,
                   files := if n = 0 then s.files
                     else s.files.filter (fun f => f != w.tempName s.trace) })) ∨
    initializeDB w s =
        (none, { trace := s.trace ++ okEvents (loadScript (w.tempName s.trace)) ++
                     pendingDeferred (w.tempName s.trace) 5,
                 files := s.files.filter (fun f => f != w.tempName s.trace) }) := by
  cases h0 : w.fails s.trace (Action.TempFile "./" "index_tmp.db") with
  | some e =>
    left
    refine ⟨0, _, e, rfl, ?_⟩
    simp [initializeDB, TempFile, h0, okEvents, loadScript, pendingDeferred]
  | none =>
    cases h1 : w.fails (s.trace ++ [Event.call (Action.TempFile "./" "index_tmp.db") none])
        (Action.sqlOpen "sqlite3" (w.tempName s.trace)) with
    | some e =>
      left
      refine ⟨1, _, e, rfl, ?_⟩
      simp [initializeDB, TempFile, call, runDeferred, h0, h1, okEvents, loadScript,
        pendingDeferred]
    | none =>
      cases h2 : w.fails (s.trace ++ [Event.call (Action.TempFile "./" "index_tmp.db") none,
          Event.call (Action.sqlOpen "sqlite3" (w.tempName s.trace)) none])
          Action.NewSQLLiteLoader with
      | some e =>
        left
        refine ⟨2, _, e, rfl, ?_⟩
        simp [initializeDB, TempFile, call, runDeferred, h0, h1, h2, okEvents, loadScript,
          pendingDeferred]
      | none =>
        cases h3 : w.fails (s.trace ++ [Event.call (Action.TempFile "./" "index_tmp.db") none,
            Event.call (Action.sqlOpen "sqlite3" (w.tempName s.trace)) none,
            Event.call Action.NewSQLLiteLoader none]) Action.Migrate with
        | some e =>
          left
          refine ⟨3, _, e, rfl, ?_⟩
          simp [initializeDB, TempFile, call, runDeferred, h0, h1, h2, h3, okEvents, loadScript,
            pendingDeferred]
        | none =>
          cases h4 : w.fails (s.trace ++ [Event.call (Action.TempFile "./" "index_tmp.db") none,
              Event.call (Action.sqlOpen "sqlite3" (w.tempName s.trace)) none,
              Event.call Action.NewSQLLiteLoader none, Event.call Action.Migrate none])
              (Action.Populate "downloaded") with
          | some e =>
            left
            refine ⟨4, _, e, rfl, ?_⟩
            simp [initializeDB, TempFile, call, runDeferred, h0, h1, h2, h3, h4, okEvents,
              loadScript, pendingDeferred]
          | none =>
            right
            simp [initializeDB, TempFile, call, runDeferred, h0, h1, h2, h3, h4, okEvents,
              loadScript, pendingDeferred]

theorem script_length (g : Globals) (c : String) : (script g c).length = 10 := rfl

theorem loadScript_length (name : String) : (loadScript name).length = 5 := rfl

theorem program_length (w : World) (g : Globals) (c : String) : (program w g c).length = 15 := rfl

/-- Every run of the stages is a prefix of the fixed program whose calls all
succeeded, then either nothing more (all fifteen succeeded) or one failing call,
and in both cases the deferred calls pending at that point. -/
theorem stages_run_cases (w : World) (g : Globals) (c : String) :
    (∃ n a e, (program w g c)[n]? = some a ∧
      stages w g c Sys.start =
        logFatal { trace := okEvents ((program w g c).take n) ++ [Event.call a (some e)] ++
                     pendingDeferred (w.tempName (okEvents (script g c))) (n - 10),
                   files := [] } (stageMessage (stageAt n) ++ e)) ∨
    stages w g c Sys.start =
      { sys := { trace := okEvents (program w g c) ++
                   pendingDeferred (w.tempName (okEvents (script g c))) 5,
                 files := [] },
        fatal := [], exitCode := 0 } := by
  rcases stages_cases w g c with ⟨n, a, e, hn, h⟩ | h
  · left
    have hlt : n < 10 := by
      have := (List.getElem?_eq_some.mp hn).1
      simpa [script_length] using this
    refine ⟨n, a, e, ?_, ?_⟩
    · rw [program, List.getElem?_append_left (by simpa [script_length] using hlt)]
      exact hn
    · rw [h, program, List.take_append_of_le_length (by simp [script_length]; omega)]
      have : n - 10 = 0 := by omega
      simp [this, pendingDeferred]
  · rcases initializeDB_cases w { trace := okEvents (script g c), files := [] } with
      ⟨n, a, e, hn, hi⟩ | hi
    · left
      have hlt : n < 5 := by
        have := (List.getElem?_eq_some.mp hn).1
        simpa [loadScript_length] using this
      refine ⟨10 + n, a, e, ?_, ?_⟩
      · rw [program, List.getElem?_append_right (by simp [script_length])]
        simpa [script_length] using hn
      · rw [h, loadStage, hi]
        have h10 : 10 + n = (script g c).length + n := by simp [script_length]
        have hst : stageAt (10 + n) = Stage.load := by
          unfold stageAt
          rw [if_neg (by omega), if_neg (by omega), if_neg (by omega), if_neg (by omega),
            if_neg (by omega), if_neg (by omega)]
        rw [program, h10, List.take_append, ← h10, hst]
        simp [okEvents_append, stageMessage, logFatal]
    · right
      rw [h, loadStage, hi]
      simp [program, okEvents_append]

theorem firstFailure_okEvents_append (xs : List Action) (rest : List Event) :
    firstFailure (okEvents xs ++ rest) =
      (firstFailure rest).map (fun p => (p.1 + xs.length, p.2)) := by
  induction xs with
  | nil => simp [okEvents]
  | cons a xs ih =>
    have h : okEvents (a :: xs) ++ rest = Event.call a none :: (okEvents xs ++ rest) := rfl
    rw [h, firstFailure, ih]
    cases firstFailure rest with
    | none => rfl
    | some p => simp [Nat.add_assoc]

theorem firstFailure_pendingDeferred (name : String) (n : Nat) :
    firstFailure (pendingDeferred name n) = none := by
  unfold pendingDeferred
  split_ifs <;> rfl

theorem pendingDeferred_isDeferred (name : String) (n : Nat) :
    ∀ ev ∈ pendingDeferred name n, ev.isDeferred = true := by
  unfold pendingDeferred
  split_ifs <;> simp [Event.isDeferred]

theorem stageMessage_injective : ∀ s t : Stage, stageMessage s = stageMessage t → s = t := by
  intro s t
  cases s <;> cases t <;> first | (intro _; rfl) | (intro h; exact absurd h (by decide))

theorem okEvents_map_action (xs : List Action) : (okEvents xs).map Event.action = xs := by
  induction xs with
  | nil => rfl
  | cons a xs ih =>
    have h : okEvents (a :: xs) = Event.call a none :: okEvents xs := rfl
    rw [h, List.map_cons, ih]
    rfl

/-- Whatever the world does, the `k`-th entry of the trace of a run, for `k < 10`,
is call number `k` of the fixed script. -/
theorem stages_trace_at (w : World) (g : Globals) (c : String) (k : Nat) (ev : Event)
    (hk : k < 10) (h : (stages w g c Sys.start).sys.trace[k]? = some ev) :
    (script g c)[k]? = some ev.action := by
  have hP : (program w g c)[k]? = (script g c)[k]? :=
    List.getElem?_append_left (by rw [script_length]; exact hk)
  have hmap : ((stages w g c Sys.start).sys.trace.map Event.action)[k]? = some ev.action := by
    rw [List.getElem?_map, h]; rfl
  rw [← hP]
  rcases stages_run_cases w g c with ⟨n, a, e, hn, hs⟩ | hs
  · have hlt : n < 15 := by
      have := (List.getElem?_eq_some.mp hn).1
      simpa [program_length] using this
    rw [hs] at hmap
    simp only [logFatal, List.map_append, okEvents_map_action, List.map_cons, List.map_nil,
      Event.action] at hmap
    have htake : (program w g c).take n ++ [a] = (program w g c).take (n + 1) := by
      rw [List.take_succ, hn]; rfl
    rw [htake] at hmap
    by_cases hkn : k < n + 1
    · rw [List.getElem?_append_left (by simp [program_length]; omega),
        List.getElem?_take_of_lt hkn] at hmap
      exact hmap
    · have h0 : n - 10 = 0 := by omega
      rw [h0] at hmap
      simp only [pendingDeferred, if_true, List.map_nil, List.append_nil] at hmap
      rw [List.getElem?_take_eq_none (by omega)] at hmap
      cases hmap
  · rw [hs] at hmap
    simp only [List.map_append, okEvents_map_action] at hmap
    rw [List.getElem?_append_left (by rw [program_length]; omega)] at hmap
    exact hmap

theorem main_eq_stages (w : World) (g : Globals) (c : String)
    (hvalid : c = "docker" ∨ c = "podman") :
    main w g [c] = stages w g c Sys.start := by
  rcases hvalid with h | h <;> subst h <;> simp [main, usage]

/-- C10.  `StringWithCharset` reseeds the source from the clock on every call, so the
result (string and final state of the source) does not depend on the state the source
was in: two calls that read the same clock value `t` return the same string whatever
was drawn before.  Hence, when the four calls of package initialisation all read the
same clock value, the four tags it produces are equal; and it does produce them as soon
as the runtime can allocate six bytes. -/
theorem StringWithCharset_clock_determined (R : RandSource) (maxLen : Nat) (t : Int) (L : Int) :
    (∀ s1 s2 : Nat, StringWithCharset R maxLen t s1 L = StringWithCharset R maxLen t s2 L) ∧
    (∀ (user pass : String) (s0 : Nat) (g : Globals),
      initGlobals R maxLen user pass t t t t s0 = some g →
      g.bundleTag1 = g.bundleTag2 ∧ g.bundleTag2 = g.bundleTag3 ∧
      g.bundleTag3 = g.indexTag) ∧
    (6 ≤ maxLen → ∀ (user pass : String) (s0 : Nat),
      ∃ g, initGlobals R maxLen user pass t t t t s0 = some g ∧
        g.bundleTag1 = g.bundleTag2 ∧ g.bundleTag2 = g.bundleTag3 ∧
        g.bundleTag3 = g.indexTag) := by
  refine ⟨fun s1 s2 => rfl, ?_, ?_⟩
  · intro user pass s0 g hg
    cases h : StringWithCharset R maxLen t s0 6 with
    | none => simp [initGlobals, h] at hg
    | some p =>
      obtain ⟨str, s1⟩ := p
      have h1 : StringWithCharset R maxLen t s1 6 = some (str, s1) := h
      simp only [initGlobals, h, h1, Option.some.injEq] at hg
      subst hg
      exact ⟨rfl, rfl, rfl⟩
  · intro h6 user pass s0
    obtain ⟨str, s1, h, -, -⟩ := StringWithCharset_six R maxLen t s0 h6
    have h1 : StringWithCharset R maxLen t s1 6 = some (str, s1) := h
    simp only [initGlobals, h, h1]
    exact ⟨_, rfl, rfl, rfl, rfl⟩

/-! ## `main` -/

/-- C1.  The argument checks of `main` let a run through exactly when the argument
list is one element that is `"docker"` or `"podman"`; then `main` is the run of the
stages with that tool, which begins with the registry login.  For every other list
`main` logs one usage message, exits with status 1, and has made no external call and
created no file. -/
theorem main_usage_validation (w : World) (g : Globals) (args : List String) :
    (∀ tool, usage args = Except.ok tool ↔
      (args = [tool] ∧ (tool = "docker" ∨ tool = "podman"))) ∧
    (∀ tool, usage args = Except.ok tool →
      main w g args = stages w g tool Sys.start ∧
      (main w g args).sys.trace.head?.map Event.action =
        some (Action.command tool
          ["login", "-u", g.DOCKER_USERNAME, "-p", g.DOCKER_PASSWORD, "quay.io"])) ∧
    ((¬ ∃ tool, args = [tool] ∧ (tool = "docker" ∨ tool = "podman")) →
      ∃ msg,
        msg ∈ ["Must specify which container tool to use from [\"docker\", \"podman\"]",
               "Too many command line arguments provided",
               "container tool argument must be one of [\"docker\", \"podman\"]"] ∧
        usage args = Except.error msg ∧
        main w g args = { sys := { trace := [], files := [] }, fatal := [msg], exitCode := 1 }) := by
  refine ⟨?_, ?_, ?_⟩
  · intro tool
    match args with
    | [] => simp [usage]
    | [a] =>
      by_cases h1 : a = "docker"
      · subst h1; simp [usage]; tauto
      · by_cases h2 : a = "podman"
        · subst h2; simp [usage]; tauto
        · simp [usage, h1, h2]
          intro h; subst h; simp [h1, h2]
    | a :: b :: rest => simp [usage]
  · intro tool h
    simp only [main, h, true_and]
    rcases stages_run_cases w g tool with ⟨n, a, e, hn, hs⟩ | hs
    · rw [hs]
      rcases n with _ | n
      · simp [program, script, loginAction] at hn
        subst hn
        simp [logFatal, okEvents, Event.action]
      · simp [logFatal, okEvents, program, script, loginAction, Event.action]
    · rw [hs]
      simp [okEvents, program, script, loginAction, Event.action]
  · intro h
    match args with
    | [] => exact ⟨_, by simp, rfl, rfl⟩
    | [a] =>
      have h1 : a ≠ "docker" := fun e => h ⟨a, rfl, Or.inl e⟩
      have h2 : a ≠ "podman" := fun e => h ⟨a, rfl, Or.inr e⟩
      refine ⟨"container tool argument must be one of [\"docker\", \"podman\"]", by simp,
        ?_, ?_⟩
      · simp [usage, h1, h2]
      · simp [main, usage, h1, h2, logFatal, Sys.start]
    | a :: b :: rest => exact ⟨_, by simp, rfl, rfl⟩

/-- C3.  With a valid tool argument and a world in which every call succeeds, `main`
performs exactly these calls, once each and in this order: registry login; the builds
of 0.14.0, 0.15.0 and 0.22.2; the pushes of the three bundle images in the same order;
the index add; the push of the index image; the export; then, inside `initialize`,
the creation of the scratch file, the opening of the database, the creation of the
loader, the migration and the load of the directory `downloaded`, followed by the two
deferred calls.  Nothing is logged by `log.Fatal` and the exit status is 0. -/
theorem main_linear_order (w : World) (g : Globals) (c : String)
    (hvalid : c = "docker" ∨ c = "podman")
    (hok : ∀ tr a, w.fails tr a = none) :
    ∃ name,
      (main w g [c]).sys.trace =
        [Event.call (Action.command c
            ["login", "-u", g.DOCKER_USERNAME, "-p", g.DOCKER_PASSWORD, "quay.io"]) none,
         Event.call (Action.BuildFunc "manifests/prometheus/0.14.0"
            ("quay.io/olmtest/e2e-bundle" ++ ":" ++ g.bundleTag1) c
            "prometheus" "preview" "preview" false) none,
         Event.call (Action.BuildFunc "manifests/prometheus/0.15.0"
            ("quay.io/olmtest/e2e-bundle" ++ ":" ++ g.bundleTag2) c
            "prometheus" "preview" "preview" false) none,
         Event.call (Action.BuildFunc "manifests/prometheus/0.22.2"
            ("quay.io/olmtest/e2e-bundle" ++ ":" ++ g.bundleTag3) c
            "prometheus" "preview" "preview" false) none,
         Event.call (Action.command c
            ["push", "quay.io/olmtest/e2e-bundle" ++ ":" ++ g.bundleTag1]) none,
         Event.call (Action.command c
            ["push", "quay.io/olmtest/e2e-bundle" ++ ":" ++ g.bundleTag2]) none,
         Event.call (Action.command c
            ["push", "quay.io/olmtest/e2e-bundle" ++ ":" ++ g.bundleTag3]) none,
         Event.call (Action.AddToIndex c
            { Generate := false, FromIndex := "", BinarySourceImage := "", OutDockerfile := "",
              Tag := "quay.io/olmtest/e2e-index:" ++ g.indexTag,
              Bundles := ["quay.io/olmtest/e2e-bundle" ++ ":" ++ g.bundleTag1,
                          "quay.io/olmtest/e2e-bundle" ++ ":" ++ g.bundleTag2,
                          "quay.io/olmtest/e2e-bundle" ++ ":" ++ g.bundleTag3],
              Permissive := false }) none,
         Event.call (Action.command c
            ["push", "quay.io/olmtest/e2e-index:" ++ g.indexTag]) none,
         Event.call (Action.ExportFromIndex c
            { Index := "quay.io/olmtest/e2e-index:" ++ g.indexTag, Package := "prometheus",
              DownloadPath := "downloaded", ContainerTool := c }) none,
         Event.call (Action.TempFile "./" "index_tmp.db") none,
         Event.call (Action.sqlOpen "sqlite3" name) none,
         Event.call Action.NewSQLLiteLoader none,
         Event.call Action.Migrate none,
         Event.call (Action.Populate "downloaded") none,
         Event.deferred Action.dbClose,
         Event.deferred (Action.Remove name)] ∧
      (main w g [c]).fatal = [] ∧ (main w g [c]).exitCode = 0 := by
  refine ⟨w.tempName (okEvents (script g c)), ?_⟩
  rw [main_eq_stages w g c hvalid]
  simp [stages, buildBundlesWith, pushBundles, pushWith, buildIndexWith,
    exportWith, initializeDB, TempFile, call, runDeferred, hok, Sys.start, okEvents, script,
    buildScript, pushScript, loginAction, buildAction, pushAction, indexRequest, exportRequest,
    bundleRefs, bundlePath1, bundlePath2, bundlePath3, bundleImage, indexImage, packageName,
    channels, defaultChannel]

theorem main_linear_order_witness :
    ("docker" = "docker" ∨ "docker" = "podman") ∧
    (∀ (tr : List Event) (a : Action), (World.allOk "./index_tmp.db042").fails tr a = none) ∧
    (main (World.allOk "./index_tmp.db042") sampleGlobals ["docker"]).sys.trace.length = 17 ∧
    (main (World.allOk "./index_tmp.db042") sampleGlobals ["docker"]).exitCode = 0 := by
  obtain ⟨name, h, -, h2⟩ := main_linear_order (World.allOk "./index_tmp.db042") sampleGlobals
    "docker" (Or.inl rfl) (fun _ _ => rfl)
  exact ⟨Or.inl rfl, fun _ _ => rfl, by rw [h]; rfl, h2⟩

/-- C4.  In a run (valid tool argument, login succeeded) in which the build of the
first bundle succeeds and the build of the second fails with error `e`:
`buildBundlesWith` returns `e` having called the builder for the first two bundles
only, and the whole run of `main` consists of the login and those two builds: the
third build, every push and everything later is never called; `main` logs the
bundle-build message and exits with status 1. -/
theorem buildBundles_short_circuit (w : World) (g : Globals) (c : String) (e : GoError)
    (hvalid : c = "docker" ∨ c = "podman")
    (hlogin : w.fails [] (loginAction g c) = none)
    (hb1 : w.fails [Event.call (loginAction g c) none]
      (buildAction c bundlePath1 g.bundleTag1) = none)
    (hb2 : w.fails [Event.call (loginAction g c) none,
        Event.call (buildAction c bundlePath1 g.bundleTag1) none]
      (buildAction c bundlePath2 g.bundleTag2) = some e) :
    buildBundlesWith w g c { trace := [Event.call (loginAction g c) none], files := [] } =
      (some e, { trace := [Event.call (loginAction g c) none,
                   Event.call (buildAction c bundlePath1 g.bundleTag1) none,
                   Event.call (buildAction c bundlePath2 g.bundleTag2) (some e)],
                 files := [] }) ∧
    (main w g [c]).sys.trace =
      [Event.call (loginAction g c) none,
       Event.call (buildAction c bundlePath1 g.bundleTag1) none,
       Event.call (buildAction c bundlePath2 g.bundleTag2) (some e)] ∧
    (∀ ev ∈ (main w g [c]).sys.trace,
      ev.action ≠ buildAction c bundlePath3 g.bundleTag3 ∧
      ∀ image, ev.action ≠ pushAction c image) ∧
    (main w g [c]).fatal = ["Error building bundles" ++ e] ∧
    (main w g [c]).exitCode = 1 := by
  simp only [loginAction, buildAction] at hlogin hb1 hb2
  have hB : buildBundlesWith w g c { trace := [Event.call (loginAction g c) none], files := [] } =
      (some e, { trace := [Event.call (loginAction g c) none,
                   Event.call (buildAction c bundlePath1 g.bundleTag1) none,
                   Event.call (buildAction c bundlePath2 g.bundleTag2) (some e)],
                 files := [] }) := by
    simp [buildBundlesWith, call, loginAction, buildAction, hb1, hb2]
  have hM : main w g [c] =
      logFatal
        { trace := [Event.call (loginAction g c) none,
                    Event.call (buildAction c bundlePath1 g.bundleTag1) none,
                    Event.call (buildAction c bundlePath2 g.bundleTag2) (some e)],
          files := [] }
        ("Error building bundles" ++ e) := by
    rw [main_eq_stages w g c hvalid]
    simp [stages, buildBundlesWith, call, loginAction, buildAction, hlogin, hb1, hb2, Sys.start]
  refine ⟨hB, ?_, ?_, ?_, ?_⟩
  · rw [hM]; rfl
  · rw [hM]
    simp [logFatal, Event.action, loginAction, buildAction, pushAction, bundlePath1, bundlePath2,
      bundlePath3]
  · rw [hM]; rfl
  · rw [hM]; rfl

theorem buildBundles_short_circuit_witness :
    (main (World.failingAt (buildAction "podman" bundlePath2 sampleGlobals.bundleTag2)
        "exit status 125" "./index_tmp.db042") sampleGlobals ["podman"]).sys.trace.length = 3 ∧
    (main (World.failingAt (buildAction "podman" bundlePath2 sampleGlobals.bundleTag2)
        "exit status 125" "./index_tmp.db042") sampleGlobals ["podman"]).fatal =
      ["Error building bundles" ++ "exit status 125"] := by
  have h := buildBundles_short_circuit
    (World.failingAt (buildAction "podman" bundlePath2 sampleGlobals.bundleTag2)
      "exit status 125" "./index_tmp.db042") sampleGlobals "podman" "exit status 125"
    (Or.inr rfl) (by decide) (by decide) (by decide)
  exact ⟨by rw [h.2.1]; rfl, h.2.2.2.1⟩

/-- C5.  In a run with a valid tool argument in which some call returns an error, let
`i` be the position in the trace of the first such call and `e` its error.  Then the
calls before it are the first `i` calls of the program, all successful, and the failing
one is call number `i` of the program; nothing is called after it except the deferred
`db.Close` and `os.Remove` pending inside `initialize`; `main` exits with status 1; and
exactly one message is logged by `log.Fatal`, the message of the stage that call number
`i` belongs to, followed by the text of `e`.  The seven stage messages are pairwise
distinct. -/
theorem main_fail_fast (w : World) (g : Globals) (c : String) (i : Nat) (e : GoError)
    (hvalid : c = "docker" ∨ c = "podman")
    (hfail : firstFailure (main w g [c]).sys.trace = some (i, e)) :
    (main w g [c]).fatal = [stageMessage (stageAt i) ++ e] ∧
    (main w g [c]).exitCode = 1 ∧
    (∃ a, (program w g c)[i]? = some a ∧
      (main w g [c]).sys.trace.take (i + 1) =
        okEvents ((program w g c).take i) ++ [Event.call a (some e)]) ∧
    (∀ ev ∈ (main w g [c]).sys.trace.drop (i + 1), ev.isDeferred = true) ∧
    (∀ s t : Stage, stageMessage s = stageMessage t → s = t) := by
  rw [main_eq_stages w g c hvalid] at hfail ⊢
  rcases stages_run_cases w g c with ⟨n, a, e1, hn, h⟩ | h
  · have hlt : n < 15 := by
      have := (List.getElem?_eq_some.mp hn).1
      simpa [program_length] using this
    have hlen : (okEvents ((program w g c).take n) ++ [Event.call a (some e1)]).length = n + 1 := by
      simp [okEvents, program_length]; omega
    rw [h] at hfail ⊢
    simp only [logFatal] at hfail
    rw [List.append_assoc, firstFailure_okEvents_append] at hfail
    simp [firstFailure, program_length] at hfail
    obtain ⟨hi, he⟩ := hfail
    have hmin : min n 15 = n := by omega
    rw [hmin] at hi
    subst hi
    subst he
    refine ⟨rfl, rfl, ⟨a, hn, ?_⟩, ?_, stageMessage_injective⟩
    · exact List.take_left' hlen
    · intro ev hev
      simp only [logFatal] at hev
      rw [List.drop_left' hlen] at hev
      exact pendingDeferred_isDeferred _ _ ev hev
  · rw [h] at hfail
    simp [firstFailure_okEvents_append, firstFailure_pendingDeferred] at hfail

theorem main_fail_fast_witness :
    (main (World.failingAt (pushAction "docker" (indexImage sampleGlobals)) "exit status 1"
        "./index_tmp.db042") sampleGlobals ["docker"]).fatal =
      [stageMessage (stageAt 8) ++ "exit status 1"] ∧
    (main (World.failingAt (pushAction "docker" (indexImage sampleGlobals)) "exit status 1"
        "./index_tmp.db042") sampleGlobals ["docker"]).exitCode = 1 := by
  have h := main_fail_fast
    (World.failingAt (pushAction "docker" (indexImage sampleGlobals)) "exit status 1"
      "./index_tmp.db042") sampleGlobals "docker" 8 "exit status 1" (Or.inl rfl) (by decide)
  exact ⟨h.1, h.2.1⟩

/-- C7.  In every run with a valid tool argument, whatever the world does: if the
index build is reached (entry 7 of the trace) its request has `Tag` equal to
`"quay.io/olmtest/e2e-index:" ++ indexTag`; if the index push is reached (entry 8) it
pushes that same reference; if the export is reached (entry 9) its request has `Index`
equal to that same reference.  The reference is computed from the value of `indexTag`
fixed before the run; no stage generates a tag.  When every call succeeds all three
entries are present. -/
theorem index_tag_stable (w : World) (g : Globals) (c : String)
    (hvalid : c = "docker" ∨ c = "podman") :
    (∀ ev, (main w g [c]).sys.trace[7]? = some ev →
      ∃ req, ev.action = Action.AddToIndex c req ∧
        req.Tag = "quay.io/olmtest/e2e-index:" ++ g.indexTag) ∧
    (∀ ev, (main w g [c]).sys.trace[8]? = some ev →
      ev.action = Action.command c ["push", "quay.io/olmtest/e2e-index:" ++ g.indexTag]) ∧
    (∀ ev, (main w g [c]).sys.trace[9]? = some ev →
      ∃ req, ev.action = Action.ExportFromIndex c req ∧
        req.Index = "quay.io/olmtest/e2e-index:" ++ g.indexTag) ∧
    ((∀ tr a, w.fails tr a = none) → 10 ≤ (main w g [c]).sys.trace.length) := by
  rw [main_eq_stages w g c hvalid]
  refine ⟨?_, ?_, ?_, ?_⟩
  · intro ev h
    have := stages_trace_at w g c 7 ev (by decide) h
    simp [script, buildScript, pushScript] at this
    exact ⟨indexRequest g, this.symm, rfl⟩
  · intro ev h
    have := stages_trace_at w g c 8 ev (by decide) h
    simp [script, buildScript, pushScript] at this
    rw [← this]; rfl
  · intro ev h
    have := stages_trace_at w g c 9 ev (by decide) h
    simp [script, buildScript, pushScript] at this
    exact ⟨exportRequest g c, this.symm, rfl⟩
  · intro hok
    simp [stages, buildBundlesWith, pushBundles, pushWith, buildIndexWith,
      exportWith, initializeDB, TempFile, call, runDeferred, hok, Sys.start]

theorem index_tag_stable_witness :
    ("podman" = "docker" ∨ "podman" = "podman") ∧
    ((main (World.allOk "./index_tmp.db042") sampleGlobals ["podman"]).sys.trace[8]?).map
        Event.action =
      some (Action.command "podman" ["push", "quay.io/olmtest/e2e-index:" ++ "idx000"]) := by
  have h := index_tag_stable (World.allOk "./index_tmp.db042") sampleGlobals "podman" (Or.inr rfl)
  refine ⟨Or.inr rfl, ?_⟩
  have h8 : (main (World.allOk "./index_tmp.db042") sampleGlobals ["podman"]).sys.trace[8]? =
      some (Event.call (Action.command "podman" ["push", "quay.io/olmtest/e2e-index:idx000"])
        none) := by decide
  rw [h8]
  exact congrArg some (h.2.1 _ h8)

/-- C8.  For every container tool, every value of the tags, every world and every
state in which it is called, `buildIndexWith` makes exactly one call, the index add,
with a request in which `Generate` and `Permissive` are false, `FromIndex` is empty and
`Bundles` is the list of three references `bundleImage:bundleTag1`,
`bundleImage:bundleTag2`, `bundleImage:bundleTag3` in that order.  `buildBundlesWith`
calls the builder on the manifests of 0.14.0, 0.15.0 and 0.22.2 with the first, second
and third of these references as image, in this order, each call being made exactly
when the calls before it succeeded; `pushBundles` runs the `push` subcommand on the
first, second and third of these references in the same way.  In particular, when the
builds and pushes succeed, the reference at each position of `Bundles` is the one built
and the one pushed at that position. -/
theorem index_build_request (w : World) (g : Globals) (c : String) (s : Sys) :
    ∃ req r ref1 ref2 ref3,
      buildIndexWith w g c s =
        (r, { trace := s.trace ++ [Event.call (Action.AddToIndex c req) r],
              files := s.files }) ∧
      req.Generate = false ∧ req.Permissive = false ∧ req.FromIndex = "" ∧
      req.Bundles = [ref1, ref2, ref3] ∧
      ref1 = bundleImage ++ ":" ++ g.bundleTag1 ∧
      ref2 = bundleImage ++ ":" ++ g.bundleTag2 ∧
      ref3 = bundleImage ++ ":" ++ g.bundleTag3 ∧
      CallsInOrder w
        (Action.BuildFunc bundlePath1 ref1 c packageName channels defaultChannel false)
        (Action.BuildFunc bundlePath2 ref2 c packageName channels defaultChannel false)
        (Action.BuildFunc bundlePath3 ref3 c packageName channels defaultChannel false)
        s (buildBundlesWith w g c s) ∧
      CallsInOrder w
        (Action.command c ["push", ref1])
        (Action.command c ["push", ref2])
        (Action.command c ["push", ref3])
        s (pushBundles w g c s) := by
  refine ⟨indexRequest g, w.fails s.trace (Action.AddToIndex c (indexRequest g)), _, _, _,
    rfl, rfl, rfl, rfl, rfl, rfl, rfl, rfl, ?_, ?_⟩
  · unfold CallsInOrder
    cases h1 : w.fails s.trace
        (Action.BuildFunc bundlePath1 (bundleImage ++ ":" ++ g.bundleTag1) c packageName channels
          defaultChannel false) with
    | some e => left; exact ⟨e, rfl, by simp [buildBundlesWith, call, h1]⟩
    | none =>
      right
      cases h2 : w.fails (s.trace ++ [Event.call
          (Action.BuildFunc bundlePath1 (bundleImage ++ ":" ++ g.bundleTag1) c packageName
            channels defaultChannel false) none])
          (Action.BuildFunc bundlePath2 (bundleImage ++ ":" ++ g.bundleTag2) c packageName
            channels defaultChannel false) with
      | some e => left; exact ⟨e, rfl, rfl, by simp [buildBundlesWith, call, h1, h2]⟩
      | none => right; exact ⟨rfl, rfl, by simp [buildBundlesWith, call, h1, h2]⟩
  · unfold CallsInOrder
    cases h1 : w.fails s.trace
        (Action.command c ["push", bundleImage ++ ":" ++ g.bundleTag1]) with
    | some e => left; exact ⟨e, rfl, by simp [pushBundles, pushWith, call, h1]⟩
    | none =>
      right
      cases h2 : w.fails (s.trace ++ [Event.call
          (Action.command c ["push", bundleImage ++ ":" ++ g.bundleTag1]) none])
          (Action.command c ["push", bundleImage ++ ":" ++ g.bundleTag2]) with
      | some e => left; exact ⟨e, rfl, rfl, by simp [pushBundles, pushWith, call, h1, h2]⟩
      | none => right; exact ⟨rfl, rfl, by simp [pushBundles, pushWith, call, h1, h2]⟩

/-- C9.  Whatever the outcomes of creating the scratch file, opening the database,
creating the loader, migrating and populating: if the scratch file was created, then
when `initialize` returns the last thing done is the deferred `os.Remove` of that file
and the file is no longer there, whether an error is returned or not; if it was not
created, nothing else is done and that error is returned.  When a step fails, the steps
before it are the first steps of `initialize`, all successful, its error is the one
returned, and after it only deferred calls run (no migrate, no populate).  When no step
fails, no error is returned.  Files other than the scratch file are left as they
were. -/
theorem initialize_cleanup (w : World) (s : Sys) :
    ∃ evs, (initializeDB w s).2.trace = s.trace ++ evs ∧
      (evs.head? = some (Event.call (Action.TempFile "./" "index_tmp.db") none) →
        w.tempName s.trace ∉ (initializeDB w s).2.files ∧
        evs.getLast? = some (Event.deferred (Action.Remove (w.tempName s.trace)))) ∧
      (∀ e, evs.head? = some (Event.call (Action.TempFile "./" "index_tmp.db") (some e)) →
        initializeDB w s = (some e, { trace := s.trace ++ evs, files := s.files }) ∧
        evs = [Event.call (Action.TempFile "./" "index_tmp.db") (some e)]) ∧
      (∀ i e, firstFailure evs = some (i, e) →
        (initializeDB w s).1 = some e ∧
        (∃ a, (loadScript (w.tempName s.trace))[i]? = some a ∧
          evs.take (i + 1) =
            okEvents ((loadScript (w.tempName s.trace)).take i) ++ [Event.call a (some e)]) ∧
        ∀ ev ∈ evs.drop (i + 1), ev.isDeferred = true) ∧
      (firstFailure evs = none →
        (initializeDB w s).1 = none ∧
        evs = okEvents (loadScript (w.tempName s.trace)) ++
          [Event.deferred Action.dbClose, Event.deferred (Action.Remove (w.tempName s.trace))]) ∧
      (∀ f, f ≠ w.tempName s.trace → (f ∈ (initializeDB w s).2.files ↔ f ∈ s.files)) := by
  rcases initializeDB_cases w s with ⟨n, a, e, hn, h⟩ | h
  · have hlt : n < 5 := by
      have := (List.getElem?_eq_some.mp hn).1
      simpa [loadScript_length] using this
    rw [h]
    refine ⟨okEvents ((loadScript (w.tempName s.trace)).take n) ++
      ([Event.call a (some e)] ++ pendingDeferred (w.tempName s.trace) n),
      by simp only [List.append_assoc], ?_⟩
    interval_cases n
    all_goals simp [loadScript] at hn
    all_goals subst hn
    all_goals simp [loadScript, okEvents, pendingDeferred, firstFailure, Event.isDeferred]
    all_goals exact fun f hf _ => hf
  · rw [h]
    refine ⟨okEvents (loadScript (w.tempName s.trace)) ++ pendingDeferred (w.tempName s.trace) 5,
      by simp only [List.append_assoc], ?_⟩
    simp [loadScript, okEvents, pendingDeferred, firstFailure, Event.isDeferred]
    exact fun f hf _ => hf

end OpmTest
